import Mathlib

/-
Verification of the teller exchange passthrough processor and configuration,
as a shallow embedding of the Go sources in Lean 4.

Sources embedded:
- src/unnamed/part_001 (package exchange: passthrough processor)
- src/unnamed/part_000 (package exchange: tests fixing expected behavior)
- src/src/config/config.go (package config)
- src/src/exchange/exchange.go (package exchange: supervisor)

Components of the repository whose implementation files are absent from src/
(the store, the receiver and the sender) are modelled from the spec; each such
definition carries a doc comment beginning with "Modelled from the spec:".

Go decimal.Decimal values (shopspring, exact big-decimal arithmetic) are
modelled as rationals; fields that Go stores as the decimal's String()
rendering are modelled by the decimal value itself. Go time.Duration is
modelled as nanoseconds (Nat). Go errors are modelled by an explicit error
type; a nil error is Option.none.
-/

unseal Rat.mul Rat.add Rat.sub Rat.inv

namespace Teller

/-- Truncation of a rational toward zero to an integer: the behavior of
shopspring decimal.Decimal.IntPart on exact decimal values. Int.tdiv is
truncated division, and the denominator of a rational is positive, so this is
the integer part of the fraction rounded toward zero. -/
def truncQ (q : ℚ) : ℤ := q.num.tdiv q.den

/-- Truncation of a rational to p decimal places toward zero: the behavior of
decimal.Decimal.Truncate(p). -/
def truncateTo (q : ℚ) (p : ℕ) : ℚ := (truncQ (q * (10 : ℚ) ^ p) : ℚ) / (10 : ℚ) ^ p

/-- Satoshis per BTC: the exchange package constant SatoshisPerBTC
(spec glossary: one BTC = 1e8 satoshi). -/
def SatoshisPerBTC : ℤ := 100000000

/-- Exponent of satoshis per BTC: the exchange package constant SatoshiExponent. -/
def SatoshiExponent : ℕ := 8

/-- droplet.Multiplier from the skycoin library: droplets per whole SKY (1e6).
The test TestRunSend (src/unnamed/part_000) fixes SkySent = 100e6 droplets for
100 SKY, pinning this value. -/
def dropletMultiplier : ℤ := 1000000

/-- Modelled from the spec: the exchange-name constant PassthroughExchangeC2CX
(defined in an exchange source file absent from src/); the C2CX exchange name. -/
def PassthroughExchangeC2CX : String := "c2cx"

/-- The package constant checkOrderWait = time.Second * 2
(src/unnamed/part_001 line 31), in nanoseconds. -/
def checkOrderWait : ℕ := 2000000000

/-- CoinTypeBTC from the scanner/config packages. -/
def CoinTypeBTC : String := "BTC"

/-- Deposit status tags of the exchange data model (spec section 4.2 and the
status constants used across src/unnamed/part_000 and part_001). -/
inductive Status where
  | waitDeposit
  | waitSend
  | waitConfirm
  | done
  | waitDecide
  | waitPassthrough
  | waitPassthroughOrderComplete
  | unknown
deriving DecidableEq, Repr

/-- Order status tags of the c2cx exchange library (skycoin/exchange-api),
named after the c2cx.Status* constants referenced in src/unnamed/part_001. -/
inductive OrderStatus where
  | statusPartial
  | statusPending
  | statusActive
  | statusSuspended
  | statusTriggerPending
  | statusStopLossPending
  | statusCompleted
  | statusCancelled
  | statusExpired
  | statusErrored
deriving DecidableEq, Repr

/-- The string rendering of a c2cx order status (OrderStatus.String()). -/
def OrderStatus.display : OrderStatus → String
  | .statusPartial => "partial"
  | .statusPending => "pending"
  | .statusActive => "active"
  | .statusSuspended => "suspended"
  | .statusTriggerPending => "trigger_pending"
  | .statusStopLossPending => "stop_loss_pending"
  | .statusCompleted => "completed"
  | .statusCancelled => "cancelled"
  | .statusExpired => "expired"
  | .statusErrored => "errored"

/-- Whether an order status is one of the transitory (not finalized) statuses
enumerated in waitOrderComplete (src/unnamed/part_001 line 562). -/
def OrderStatus.notFinalized : OrderStatus → Bool
  | .statusPartial => true
  | .statusPending => true
  | .statusActive => true
  | .statusSuspended => true
  | .statusTriggerPending => true
  | .statusStopLossPending => true
  | _ => false

/-- A c2cx.Order as consumed by the passthrough processor: the fields read by
src/unnamed/part_001 (OrderID int, CID *string, Status, CompletedAmount and
AvgPrice as decimals). -/
structure COrder where
  orderID : ℤ
  cid : Option String := none
  status : OrderStatus
  completedAmount : ℚ := 0
  avgPrice : ℚ := 0
deriving DecidableEq, Repr

/-- DepositInfo.Passthrough.Order: the per-order sub-record of a deposit
(spec section 3). CompletedAmount and Price hold decimal values that Go stores
via String(); Original holds a copy of the raw c2cx order once final. -/
structure PassthroughOrder where
  customerID : String := ""
  orderID : String := ""
  status : String := ""
  final : Bool := false
  completedAmount : ℚ := 0
  price : ℚ := 0
  original : Option COrder := none
deriving DecidableEq, Repr

/-- DepositInfo.Passthrough: the passthrough sub-record of a deposit
(spec section 3). RequestedAmount holds the decimal value that Go stores via
String(). -/
structure PassthroughInfo where
  exchangeName : String := ""
  requestedAmount : ℚ := 0
  depositValueSpent : ℤ := 0
  skyBought : ℕ := 0
  order : PassthroughOrder := {}
deriving DecidableEq, Repr

/-- The DepositInfo record (spec section 3): one record per observed deposit.
depositValue is the raw deposit value in source-chain smallest units
(DepositInfo.DepositValue in the Go code). -/
structure DepositInfo where
  seq : ℕ := 0
  updatedAt : ℤ := 0
  status : Status := .unknown
  coinType : String := ""
  skyAddress : String := ""
  depositAddress : String := ""
  depositID : String := ""
  depositValue : ℤ := 0
  conversionRate : String := ""
  skySent : ℕ := 0
  txid : String := ""
  passthrough : PassthroughInfo := {}
  errorMsg : String := ""
deriving DecidableEq, Repr

/-- Modelled from the spec: the deposit state machine of section 4.2. A
transition is legal along the listed forward edges; updating a record without
changing its status is also legal (section 8: UpdateDepositInfo with the
identity leaves the record intact). -/
def validTransition (a b : Status) : Bool :=
  if a = b then true
  else
    match a, b with
    | .waitDeposit, .waitSend => true
    | .waitDeposit, .waitDecide => true
    | .waitDecide, .waitPassthrough => true
    | .waitPassthrough, .waitPassthroughOrderComplete => true
    | .waitPassthroughOrderComplete, .waitSend => true
    | .waitSend, .waitConfirm => true
    | .waitConfirm, .done => true
    | _, _ => false

/-- The persistent store, modelled as the list of its DepositInfo records. -/
abbrev Store := List DepositInfo

/-- Store.GetDepositInfo: the record keyed by the given DepositID. -/
def getDepositInfo (s : Store) (id : String) : Option DepositInfo :=
  s.find? (fun di => di.depositID = id)

/-- Errors circulating in the passthrough processor. The constructors mirror
the Go error values and error kinds distinguished by src/unnamed/part_001:
c2cx.APIError, any other c2cx.Error, net.Error, the errQuit sentinel,
ErrFatalOrderStatus, scanner.ErrUnsupportedCoinType, ErrDepositStatusInvalid,
errCompletedAmountNegative, and plain errors.New values. -/
inductive PErr where
  | apiError (message : String)
  | otherC2CXError (message : String)
  | netError (message : String)
  | errQuit
  | fatalOrderStatus
  | unsupportedCoinType
  | depositStatusInvalid
  | completedAmountNegative
  | storeError (message : String)
  | other (message : String)
deriving DecidableEq, Repr

/-- Modelled from the spec: the store's transactional UpdateDepositInfo
(the store implementation file is absent from src/). It loads the record keyed
by id, applies the pure mutator, validates the status transition against the
state machine, and persists; illegal transitions are rejected without writing
(section 4.1). On failure it returns the zero DepositInfo, as the callers in
src/unnamed/part_001 propagate the returned record. UpdatedAt stamping is not
modelled. -/
def updateDepositInfo (s : Store) (id : String) (f : DepositInfo → DepositInfo) :
    Store × DepositInfo × Option PErr :=
  match s.find? (fun di => di.depositID = id) with
  | none => (s, {}, some (.storeError "deposit info not found"))
  | some di =>
    let di2 := f di
    if validTransition di.status di2.status then
      (s.map (fun d => if d.depositID = id then di2 else d), di2, none)
    else
      (s, {}, some (.storeError "invalid status transition"))

/-- The C2CX section of the SkyExchanger configuration
(src/src/config/config.go lines 185-193). Durations are nanoseconds; the
decimal btc_minimum_volume is a rational. -/
structure C2CXConfig where
  key : String := ""
  secret : String := ""
  requestFailureWait : ℕ := 0
  ratelimitWait : ℕ := 0
  checkOrderWait : ℕ := 0
  btcMinimumVolume : ℚ := 0
deriving DecidableEq, Repr

/-- The action labels of processWaitDecideDeposit's error classification
(src/unnamed/part_001 lines 243-246). -/
inductive Action where
  | retry
  | retryRatelimited
  | fail
  | quit
deriving DecidableEq, Repr

/-- strings.HasPrefix of Go, on the character lists of the two strings. -/
def hasPrefix (p s : String) : Bool := p.data.isPrefixOf s.data

/-- The error-classification switch of processWaitDecideDeposit
(src/unnamed/part_001 lines 249-281), for a non-nil error. A c2cx.APIError
defaults to retry, is overridden to fail when its message has prefix
"limit value:", and to retryRatelimited when its message is exactly
"Too Many Requests"; any other c2cx.Error or net.Error retries; errQuit quits;
any other error fails. -/
def classifyError (e : PErr) : Action :=
  match e with
  | .apiError msg =>
    let a := Action.retry
    let a := if hasPrefix "limit value:" msg then Action.fail else a
    let a := if msg = "Too Many Requests" then Action.retryRatelimited else a
    a
  | .otherC2CXError _ => Action.retry
  | .netError _ => Action.retry
  | .errQuit => Action.quit
  | _ => Action.fail

/-- What the retry loop of processWaitDecideDeposit does after an iteration
(src/unnamed/part_001 lines 287-309): sleep a given duration and retry, return
the error (the deposit fails), or return without error (quit / proceed). -/
inductive LoopStep where
  | wait (d : ℕ)
  | failWith (e : PErr)
  | exitLoop
  | proceed
deriving DecidableEq, Repr

/-- One iteration tail of processWaitDecideDeposit's retry loop: given the
(DepositInfo, error) pair returned by handleDepositInfoState, the loop decides
its action; the deposit record itself is not modified by the loop. A nil error
proceeds to the StatusWaitSend check; retry sleeps RequestFailureWait;
retry_ratelimited sleeps RatelimitWait; fail returns the error; quit returns
without error. -/
def retryLoopStep (cfg : C2CXConfig) (di : DepositInfo) (err : Option PErr) :
    DepositInfo × LoopStep :=
  match err with
  | none => (di, .proceed)
  | some e =>
    match classifyError e with
    | .retry => (di, .wait cfg.requestFailureWait)
    | .retryRatelimited => (di, .wait cfg.ratelimitWait)
    | .fail => (di, .failWith e)
    | .quit => (di, .exitLoop)

/-- Modelled from the spec: DepositInfo.ValidateForStatus (the data-model
source file is absent from src/). It checks the fields required at the
record's current status: a DepositID is always required; at WaitPassthrough a
CustomerID must be set; at WaitPassthroughOrderComplete an OrderID must be
set. Statuses the passthrough handler cannot process are not rejected here
(handleDepositInfoState rejects them itself). -/
def validateForStatus (di : DepositInfo) : Option PErr :=
  if di.depositID = "" then some (.other "DepositID missing")
  else
    match di.status with
    | .waitPassthrough =>
      if di.passthrough.order.customerID = "" then
        some (.other "CustomerID missing for StatusWaitPassthrough")
      else none
    | .waitPassthroughOrderComplete =>
      if di.passthrough.order.orderID = "" then
        some (.other "OrderID missing for StatusWaitPassthroughOrderComplete")
      else none
    | _ => none

/-- calculateRequestedAmount (src/unnamed/part_001 lines 614-618): converts a
satoshi amount to a decimal BTC amount truncated to the price precision of the
BTC/SKY orderbook. The precision is the external library constant
c2cx.TradePairRulesTable[BtcSky].PricePrecision, threaded here as a
parameter. -/
def calculateRequestedAmount (pricePrecision : ℕ) (depositValue : ℤ) : ℚ :=
  truncateTo ((depositValue : ℚ) / ((10 : ℚ) ^ SatoshiExponent)) pricePrecision

/-- calculateSkyBought (src/unnamed/part_001 lines 625-632): the amount of SKY
bought in droplets, CompletedAmount times droplet.Multiplier truncated to an
integer, an error when that integer is negative. -/
def calculateSkyBought (order : COrder) : Except PErr ℕ :=
  let skyBought := truncQ (order.completedAmount * (dropletMultiplier : ℚ))
  if skyBought < 0 then .error .completedAmountNegative
  else .ok skyBought.toNat

/-- calculateBtcSpent (src/unnamed/part_001 lines 637-640): the amount of BTC
spent in satoshis, CompletedAmount times AvgPrice times SatoshisPerBTC
truncated to an integer. -/
def calculateBtcSpent (order : COrder) : ℤ :=
  truncQ (order.completedAmount * order.avgPrice * (SatoshisPerBTC : ℚ))

/-- placeOrder (src/unnamed/part_001 lines 490-514). The MarketBuy exchange
call is an environment input. The decimal parse of RequestedAmount cannot fail
in this model because RequestedAmount is modelled by its decimal value. -/
def placeOrder (di : DepositInfo) (marketBuy : Except PErr ℤ) : Except PErr ℤ :=
  if di.coinType ≠ CoinTypeBTC then .error .unsupportedCoinType
  else if di.passthrough.order.customerID = "" then
    .error (.other "CustomerID is not set on DepositInfo.Passthrough")
  else marketBuy

/-- Accumulating decimal-digit parser over a character list, used to model
strconv.Atoi. -/
def atoiDigits : List Char → ℕ → Option ℕ
  | [], acc => some acc
  | c :: cs, acc =>
    if c.isDigit then atoiDigits cs (acc * 10 + (c.toNat - 48)) else none

/-- strconv.Atoi modelled on the character list of the string: an optional
sign followed by at least one decimal digit (machine-integer overflow is not
modelled). -/
def atoi (s : String) : Option ℤ :=
  match s.data with
  | [] => none
  | '-' :: cs =>
    match cs with
    | [] => none
    | _ => (atoiDigits cs 0).map (fun n => -(n : ℤ))
  | '+' :: cs =>
    match cs with
    | [] => none
    | _ => (atoiDigits cs 0).map (fun n => (n : ℤ))
  | cs => (atoiDigits cs 0).map (fun n => (n : ℤ))

/-- One event observed by waitOrderComplete's polling select
(src/unnamed/part_001 lines 530-607): either the quit signal fires, or the
checkOrderWait timer fires and GetOrderInfo returns a result. -/
inductive PollEvent where
  | quitSignal
  | response (r : Except PErr COrder)
deriving Repr

/-- The polling loop body of waitOrderComplete (src/unnamed/part_001 lines
530-607) over a finite script of poll events. Each response is sanity-checked
(OrderID and CID must match the stored order data) before its status is
examined; not-finalized statuses keep polling; Completed fills the passthrough
amounts and order record; any other status records the fatal order marker and
returns ErrFatalOrderStatus. Returns none when the script is exhausted with
the order still not finalized (the Go loop would keep polling). -/
def waitLoop (di : DepositInfo) : List PollEvent → Option (DepositInfo × Option PErr)
  | [] => none
  | e :: rest =>
    match e with
    | .quitSignal => some (di, some .errQuit)
    | .response (.error err) => some (di, some err)
    | .response (.ok order) =>
      if toString order.orderID ≠ di.passthrough.order.orderID then
        some (di, some (.other "order.OrderID != di.Passthrough.OrderID unexpectedly"))
      else if order.cid = none ∨ order.cid ≠ some di.passthrough.order.customerID then
        some (di, some (.other "order.CID != di.Passthrough.Order.CustomerID unexpectedly"))
      else if order.status.notFinalized then
        waitLoop di rest
      else if order.status = .statusCompleted then
        let skyBought : ℕ :=
          match calculateSkyBought order with
          | .ok n => n
          | .error _ => 0
        let btcSpent := calculateBtcSpent order
        some ({ di with passthrough := { di.passthrough with
            skyBought := skyBought
            depositValueSpent := btcSpent
            order := { di.passthrough.order with
              status := order.status.display
              final := true
              original := some order
              completedAmount := order.completedAmount
              price := order.avgPrice } } }, none)
      else
        some ({ di with passthrough := { di.passthrough with
            order := { di.passthrough.order with
              status := order.status.display
              final := true
              original := some order } } }, some .fatalOrderStatus)

/-- waitOrderComplete (src/unnamed/part_001 lines 517-610): requires the
stored OrderID to be set and parseable as an integer, then runs the polling
loop. -/
def waitOrderComplete (di : DepositInfo) (events : List PollEvent) :
    Option (DepositInfo × Option PErr) :=
  if di.passthrough.order.orderID = "" then
    some (di, some (.other "DepositInfo.Passthrough.OrderID is not set"))
  else
    match atoi di.passthrough.order.orderID with
    | none => some (di, some (.other "OrderID cannot be parsed to int"))
    | some _ => waitLoop di events

/-- The waiting period between successive GetOrderInfo polls in
waitOrderComplete: the select arm is time.After(checkOrderWait)
(src/unnamed/part_001 line 536), the package constant, regardless of the
configuration. -/
def pollWaitBetweenAttempts (_cfg : C2CXConfig) : ℕ := checkOrderWait

/-- handleDepositInfoState (src/unnamed/part_001 lines 312-409). The store,
the MarketBuy result and the poll-event script are explicit inputs. Returns
none when waitOrderComplete exhausts its script with the order still open;
otherwise returns the store, the resulting DepositInfo and the error, exactly
as the Go function. In the StatusWaitPassthroughOrderComplete case, a nil or
ErrFatalOrderStatus result from waitOrderComplete falls through to the store
update that sets StatusWaitSend on the record returned by waitOrderComplete;
errQuit and all other errors return without updating. -/
def handleDepositInfoState (pricePrecision : ℕ) (marketBuy : Except PErr ℤ)
    (events : List PollEvent) (s : Store) (di : DepositInfo) :
    Option (Store × DepositInfo × Option PErr) :=
  match validateForStatus di with
  | some err => some (s, di, some err)
  | none =>
    if di.coinType ≠ CoinTypeBTC then
      some (s, di, some .unsupportedCoinType)
    else
      match di.status with
      | .waitDecide =>
        let (s2, di2, err) := updateDepositInfo s di.depositID (fun di => { di with
          status := .waitPassthrough
          passthrough := { di.passthrough with
            exchangeName := PassthroughExchangeC2CX
            requestedAmount := calculateRequestedAmount pricePrecision di.depositValue
            order := { di.passthrough.order with customerID := di.depositID } } })
        match err with
        | some e => some (s2, di2, some e)
        | none => some (s2, di2, none)
      | .waitPassthrough =>
        match placeOrder di marketBuy with
        | .error e => some (s, di, some e)
        | .ok orderID =>
          let (s2, di2, err) := updateDepositInfo s di.depositID (fun di => { di with
            status := .waitPassthroughOrderComplete
            passthrough := { di.passthrough with
              order := { di.passthrough.order with orderID := toString orderID } } })
          match err with
          | some e => some (s2, di2, some e)
          | none => some (s2, di2, none)
      | .waitPassthroughOrderComplete =>
        match waitOrderComplete di events with
        | none => none
        | some (newDepositInfo, err) =>
          match err with
          | some .errQuit => some (s, di, some .errQuit)
          | some .fatalOrderStatus =>
            let (s2, di2, err2) :=
              updateDepositInfo s di.depositID (fun _ => { newDepositInfo with status := .waitSend })
            match err2 with
            | some e => some (s2, di2, some e)
            | none => some (s2, di2, none)
          | some e => some (s, di, some e)
          | none =>
            let (s2, di2, err2) :=
              updateDepositInfo s di.depositID (fun _ => { newDepositInfo with status := .waitSend })
            match err2 with
            | some e => some (s2, di2, some e)
            | none => some (s2, di2, none)
      | _ => some (s, di, some .depositStatusInvalid)

/-- The store mutator applied by fixUnrecordedOrders to a matched deposit
(src/unnamed/part_001 lines 473-477): set StatusWaitPassthroughOrderComplete
and record the recovered OrderID. -/
def recordOrderOnDeposit (o : COrder) (di : DepositInfo) : DepositInfo :=
  { di with
    status := .waitPassthroughOrderComplete
    passthrough := { di.passthrough with
      order := { di.passthrough.order with orderID := toString o.orderID } } }

/-- The cidToDeposits map of fixUnrecordedOrders (src/unnamed/part_001 lines
441-448), built by assigning each StatusWaitPassthrough deposit under its
CustomerID in iteration order (a later deposit with the same CustomerID
overwrites an earlier one, as in a Go map). -/
def cidLookup (pending : List DepositInfo) (c : String) : Option DepositInfo :=
  pending.foldl
    (fun acc di => if di.passthrough.order.customerID = c then some di else acc) none

/-- One iteration of fixUnrecordedOrders' loop over the returned orders
(src/unnamed/part_001 lines 462-484): an order with a nil CID, or whose CID
matches no pending deposit, is skipped; a matching order updates that deposit
in the store and appends the update to the result list; a store failure aborts
the sweep. -/
def fixStep (pending : List DepositInfo)
    (acc : Store × List DepositInfo × Option PErr) (o : COrder) :
    Store × List DepositInfo × Option PErr :=
  match acc with
  | (s, ups, some e) => (s, ups, some e)
  | (s, ups, none) =>
    match o.cid with
    | none => (s, ups, none)
    | some c =>
      match cidLookup pending c with
      | none => (s, ups, none)
      | some di0 =>
        let (s2, di2, err) := updateDepositInfo s di0.depositID (recordOrderOnDeposit o)
        match err with
        | some e => (s2, ups, some e)
        | none => (s2, ups ++ [di2], none)

/-- The deposits at StatusWaitPassthrough in the store, as collected by
fixUnrecordedOrders (src/unnamed/part_001 lines 425-427). -/
def pendingOf (s : Store) : List DepositInfo :=
  s.filter (fun di => di.status = .waitPassthrough)

/-- fixUnrecordedOrders (src/unnamed/part_001 lines 413-487). Deposits at
StatusWaitPassthrough are collected; when there are none the sweep does
nothing (GetOrderByStatus is not called); a pending deposit without a
CustomerID aborts; otherwise all orders returned by
GetOrderByStatus(BtcSky, StatusAll) (an environment input) are matched by CID
against the pending deposits. Returns the updated store, the list of updated
deposits, and the error. -/
def fixUnrecordedOrders (s : Store) (ordersResult : Except PErr (List COrder)) :
    Store × List DepositInfo × Option PErr :=
  if (pendingOf s).isEmpty then (s, [], none)
  else if (pendingOf s).any (fun di => di.passthrough.order.customerID = "") then
    (s, [], some (.other "StatusWaitPassthrough deposit unexpectedly does not have CustomerID set"))
  else
    match ordersResult with
    | .error e => (s, [], some e)
    | .ok orders => orders.foldl (fixStep (pendingOf s)) (s, [], none)

/-- The startup sequence of Passthrough.Run (src/unnamed/part_001 lines
100-155): run fixUnrecordedOrders, then load the
StatusWaitPassthroughOrderComplete records followed by the
StatusWaitPassthrough records from the store and enqueue them, in that order,
into the internal work queue. Returns the store after the sweep, the queue
contents, and the error. -/
def runStartupQueue (s : Store) (ordersResult : Except PErr (List COrder)) :
    Store × List DepositInfo × Option PErr :=
  let (s2, _, err) := fixUnrecordedOrders s ordersResult
  match err with
  | some e => (s2, [], some e)
  | none =>
    let waitOrderCompleteDeposits :=
      s2.filter (fun di => di.status = .waitPassthroughOrderComplete)
    let waitPassthroughDeposits :=
      s2.filter (fun di => di.status = .waitPassthrough)
    (s2, waitOrderCompleteDeposits ++ waitPassthroughDeposits, none)

/-- Proof view of one fixUnrecordedOrders iteration as it acts on a single
store record: the record is replaced by recordOrderOnDeposit exactly when the
order's CID resolves through the cidToDeposits map to a pending deposit with
this record's DepositID. Each fixStep is a keyed map over the store, so the
whole sweep acts pointwise through this function. -/
def orderEffect (pending : List DepositInfo) (d : DepositInfo) (o : COrder) :
    DepositInfo :=
  match o.cid with
  | none => d
  | some c =>
    match cidLookup pending c with
    | none => d
    | some di0 => if d.depositID = di0.depositID then recordOrderOnDeposit o d else d

/-- Proof view of the whole order sweep on a single store record. -/
def ordersEffect (pending : List DepositInfo) (orders : List COrder)
    (d : DepositInfo) : DepositInfo :=
  orders.foldl (orderEffect pending) d

/-- Proof view: whether an order resolves, through the cidToDeposits map of
the pending deposits, to the record keyed by the given DepositID. -/
def firesOn (pending : List DepositInfo) (o : COrder) (i : String) : Prop :=
  match o.cid with
  | none => False
  | some c =>
    match cidLookup pending c with
    | none => False
    | some di0 => di0.depositID = i

/-- The observable outcome of handling one scanner deposit event in the
receiver: the value written to the event's ErrC acknowledgement channel
(none models a nil error), whether the event was put back into an in-process
queue, and whether the restart-required log marker was emitted. -/
structure SaveOutcome where
  ack : Option String
  requeued : Bool
  logRestartMarker : Bool
deriving DecidableEq, Repr

/-- Modelled from the spec: the receiver's saveIncomingDeposit (the receiver
source file is absent from src/; the test
TestSaveIncomingDepositCreateDepositFailed in src/unnamed/part_000 fixes its
behavior). The GetOrCreateDepositInfo store result is an environment input;
nil is written to ErrC exactly when it succeeds, the store's error otherwise;
a failed event is never re-enqueued, and the failure emits the log marker
"saveIncomingDeposit failed. This deposit will not be reprocessed until
teller is restarted.". -/
def saveIncomingDeposit (storeResult : Except String DepositInfo) : SaveOutcome :=
  match storeResult with
  | .ok _ => { ack := none, requeued := false, logRestartMarker := false }
  | .error e => { ack := some e, requeued := false, logRestartMarker := true }

/-- Modelled from the spec: the receiver's event loop handles each scanner
event in sequence; a store failure on one event stops only that deposit, and
the loop continues with the next event. -/
def receiverLoop (results : List (Except String DepositInfo)) : List SaveOutcome :=
  results.map saveIncomingDeposit

/-- Modelled from the spec: calculateSkyValue of the direct path (the source
file is absent from src/; testRunProcessDepositBacklog in src/unnamed/part_000
uses it as SkySent = value x rate). Converts a satoshi amount at the given
whole-SKY-per-BTC rate into droplets, truncating the SKY amount to maxDecimals
decimal places. -/
def calculateSkyValue (satoshis : ℤ) (rate : ℚ) (maxDecimals : ℕ) : ℤ :=
  truncQ (truncateTo ((satoshis : ℚ) / ((10 : ℚ) ^ SatoshiExponent) * rate) maxDecimals
    * (dropletMultiplier : ℚ))

/-- Modelled from the spec: creation of the direct-path deposit record by
GetOrCreateDepositInfo on the first scanner event (spec sections 4.1 and 4.3;
TestRunSend in src/unnamed/part_000 fixes the expected record). The record
starts at StatusWaitSend with the configured rate snapshotted; the DepositID
is tx ++ ":" ++ n. -/
def directCreate (skyAddr depositAddr : String) (value : ℤ) (tx : String) (n : ℕ)
    (rate : ℤ) : DepositInfo :=
  { seq := 1
    status := .waitSend
    coinType := CoinTypeBTC
    skyAddress := skyAddr
    depositAddress := depositAddr
    depositID := tx ++ ":" ++ toString n
    depositValue := value
    conversionRate := toString rate }

/-- Modelled from the spec: the sender's submit step on a StatusWaitSend
record (spec section 4.5; TestRunSend in src/unnamed/part_000 fixes the
expected record): compute SkySent from the snapshotted rate, record the
returned Txid, and transition to StatusWaitConfirm. -/
def directSend (di : DepositInfo) (rate : ℚ) (maxDecimals : ℕ) (txid : String) :
    DepositInfo :=
  { di with
    skySent := (calculateSkyValue di.depositValue rate maxDecimals).toNat
    txid := txid
    status := .waitConfirm }

/-- Modelled from the spec: the sender's confirmation step on a
StatusWaitConfirm record (spec section 4.5): when IsTxConfirmed reports true
the record transitions to StatusDone, otherwise it is left unchanged. -/
def directConfirm (di : DepositInfo) (confirmed : Bool) : DepositInfo :=
  if confirmed then { di with status := .done } else di

/-- The teller section of the configuration (src/src/config/config.go lines
112-117). -/
structure TellerSection where
  maxBoundAddresses : ℤ := 0
  bindEnabled : Bool := false
deriving DecidableEq, Repr

/-- SkyRPC config (src/src/config/config.go lines 120-122). -/
structure SkyRPC where
  address : String := ""
deriving DecidableEq, Repr

/-- BtcRPC config (src/src/config/config.go lines 125-130). -/
structure BtcRPC where
  server : String := ""
  user : String := ""
  pass : String := ""
  cert : String := ""
deriving DecidableEq, Repr

/-- EthRPC config (src/src/config/config.go lines 133-136). -/
structure EthRPC where
  server : String := ""
  port : String := ""
deriving DecidableEq, Repr

/-- BtcScanner config (src/src/config/config.go lines 139-145); the same
shape is used for the ETH and SKY scanners. -/
structure ScannerSection where
  scanPeriod : ℕ := 0
  initialScanHeight : ℤ := 0
  confirmationsRequired : ℤ := 0
  enabled : Bool := false
deriving DecidableEq, Repr

/-- SkyExchanger config (src/src/config/config.go lines 166-183). -/
structure SkyExchanger where
  skyBtcExchangeRate : String := ""
  skyEthExchangeRate : String := ""
  skySkyExchangeRate : String := ""
  maxDecimals : ℤ := 0
  txConfirmationCheckWait : ℕ := 0
  wallet : String := ""
  sendEnabled : Bool := false
  buyMethod : String := ""
  c2cx : C2CXConfig := {}
deriving DecidableEq, Repr

/-- Web config (src/src/config/config.go lines 270-281). -/
structure WebSection where
  httpAddr : String := ""
  httpsAddr : String := ""
  staticDir : String := ""
  autoTLSHost : String := ""
  tlsCert : String := ""
  tlsKey : String := ""
  throttleMax : ℤ := 0
  throttleDuration : ℕ := 0
  behindProxy : Bool := false
  corsAllowed : List String := []
deriving DecidableEq, Repr

/-- AdminPanel config (src/src/config/config.go lines 309-311). -/
structure AdminPanel where
  host : String := ""
deriving DecidableEq, Repr

/-- Dummy config (src/src/config/config.go lines 314-318). -/
structure Dummy where
  scanner : Bool := false
  sender : Bool := false
  httpAddr : String := ""
deriving DecidableEq, Repr

/-- The configuration root (src/src/config/config.go lines 72-109). StartTime
is modelled as epoch seconds. -/
structure Config where
  debug : Bool := false
  logFilename : String := ""
  dbFilename : String := ""
  pidFilename : String := ""
  gitCommit : String := ""
  startTime : ℤ := 0
  btcAddresses : String := ""
  ethAddresses : String := ""
  skyAddresses : String := ""
  teller : TellerSection := {}
  skyRPC : SkyRPC := {}
  btcRPC : BtcRPC := {}
  ethRPC : EthRPC := {}
  btcScanner : ScannerSection := {}
  ethScanner : ScannerSection := {}
  skyScanner : ScannerSection := {}
  skyExchanger : SkyExchanger := {}
  web : WebSection := {}
  adminPanel : AdminPanel := {}
  dummy : Dummy := {}
deriving DecidableEq, Repr

/-- The replacement string used by Config.Redacted
(src/src/config/config.go line 344). -/
def redactedStr : String := "<redacted>"

/-- Config.Redacted (src/src/config/config.go lines 343-363): a copy of the
config in which each of BtcRPC.User, BtcRPC.Pass, SkyExchanger.C2CX.Key and
SkyExchanger.C2CX.Secret is replaced by the redaction string when it is
non-empty. -/
def Config.redacted (c : Config) : Config :=
  let c := if c.btcRPC.user ≠ "" then
    { c with btcRPC := { c.btcRPC with user := redactedStr } } else c
  let c := if c.btcRPC.pass ≠ "" then
    { c with btcRPC := { c.btcRPC with pass := redactedStr } } else c
  let c := if c.skyExchanger.c2cx.key ≠ "" then
    { c with skyExchanger := { c.skyExchanger with
      c2cx := { c.skyExchanger.c2cx with key := redactedStr } } } else c
  let c := if c.skyExchanger.c2cx.secret ≠ "" then
    { c with skyExchanger := { c.skyExchanger with
      c2cx := { c.skyExchanger.c2cx with secret := redactedStr } } } else c
  c

/-- A concrete deposit at StatusWaitPassthroughOrderComplete with order 42
placed under CustomerID "tx:0", used as example data. -/
def exampleOrderCompleteDeposit : DepositInfo :=
  { status := .waitPassthroughOrderComplete, coinType := "BTC", depositID := "tx:0",
    passthrough := { order := { customerID := "tx:0", orderID := "42" } } }

/-- A concrete deposit at StatusWaitDecide of one BTC, used as example data. -/
def exampleWaitDecideDeposit : DepositInfo :=
  { status := .waitDecide, coinType := "BTC", depositID := "tx:0",
    depositValue := 100000000 }

/-- A concrete deposit at StatusWaitPassthrough with CustomerID "tx:1" and no
recorded order, used as example data for the recovery sweep. -/
def exampleSweepPending : DepositInfo :=
  { status := .waitPassthrough, coinType := "BTC", depositID := "tx:1",
    passthrough := { order := { customerID := "tx:1" } } }

/-- A concrete store with one StatusWaitPassthrough deposit and one
StatusWaitSend deposit, used as example data for the recovery sweep. -/
def exampleSweepStore : Store :=
  [exampleSweepPending, { status := .waitSend, depositID := "tx:2" }]

/-- A concrete exchange order carrying the CID of exampleSweepPending. -/
def exampleSweepOrder : COrder :=
  { orderID := 42, cid := some "tx:1", status := .statusActive }

/-- A concrete exchange order with no CID. -/
def exampleSweepNilOrder : COrder :=
  { orderID := 7, status := .statusActive }

/-- Helper: updateDepositInfo on a store whose record keyed by the deposit's
own DepositID is that deposit, with a mutator whose status transition is
legal, performs the single keyed replacement and returns the mutated record
without error. -/
theorem updateDepositInfo_found (s : Store) (di : DepositInfo)
    (f : DepositInfo → DepositInfo)
    (h : getDepositInfo s di.depositID = some di)
    (hv : validTransition di.status (f di).status = true) :
    updateDepositInfo s di.depositID f =
      (s.map (fun d => if d.depositID = di.depositID then f di else d), f di, none) := by
  unfold updateDepositInfo
  unfold getDepositInfo at h
  rw [h]
  simp [hv]

/-- Helper: waitOrderComplete with a set, integer-parseable OrderID runs the
polling loop. -/
theorem waitOrderComplete_parses (di : DepositInfo) (events : List PollEvent)
    (k : ℤ) (h9 : di.passthrough.order.orderID ≠ "")
    (hk : atoi di.passthrough.order.orderID = some k) :
    waitOrderComplete di events = waitLoop di events := by
  unfold waitOrderComplete
  rw [if_neg h9, hk]

/-- Helper: the polling loop on a matching completed response fills the
bought amounts and the final order record. -/
theorem waitLoop_completed (di : DepositInfo) (order : COrder)
    (rest : List PollEvent)
    (h5 : toString order.orderID = di.passthrough.order.orderID)
    (h6 : order.cid = some di.passthrough.order.customerID)
    (h7 : order.status = .statusCompleted)
    (h8 : ¬ truncQ (order.completedAmount * (dropletMultiplier : ℚ)) < 0) :
    waitLoop di (.response (.ok order) :: rest) =
      some ({ di with passthrough := { di.passthrough with
        skyBought := (truncQ (order.completedAmount * (dropletMultiplier : ℚ))).toNat
        depositValueSpent := calculateBtcSpent order
        order := { di.passthrough.order with
          status := order.status.display
          final := true
          original := some order
          completedAmount := order.completedAmount
          price := order.avgPrice } } }, none) := by
  have hsky : calculateSkyBought order =
      .ok (truncQ (order.completedAmount * (dropletMultiplier : ℚ))).toNat := by
    unfold calculateSkyBought
    rw [if_neg h8]
  simp only [waitLoop]
  rw [if_neg (by simp [h5]), if_neg (by simp [h6]),
    if_neg (by rw [h7]; decide), if_pos h7, hsky]

/-- Helper: the polling loop on a matching response in a final status other
than Completed records the fatal order marker and returns
ErrFatalOrderStatus. -/
theorem waitLoop_fatal (di : DepositInfo) (order : COrder)
    (rest : List PollEvent)
    (h5 : toString order.orderID = di.passthrough.order.orderID)
    (h6 : order.cid = some di.passthrough.order.customerID)
    (h7 : order.status.notFinalized = false)
    (h7b : order.status ≠ .statusCompleted) :
    waitLoop di (.response (.ok order) :: rest) =
      some ({ di with passthrough := { di.passthrough with
        order := { di.passthrough.order with
          status := order.status.display
          final := true
          original := some order } } }, some .fatalOrderStatus) := by
  simp only [waitLoop]
  rw [if_neg (by simp [h5]), if_neg (by simp [h6]),
    if_neg (by simp [h7]), if_neg h7b]

/-- C1 counterexample: a deposit at WaitPassthroughOrderComplete whose polled
order ends Cancelled (a final status other than Completed) has the fatal
marker recorded (Status "cancelled", Final true) and handleDepositInfoState
nevertheless transitions it to StatusWaitSend, returning no error. -/
theorem c1_counterexample :
    (handleDepositInfoState 5 (.error .errQuit)
      [.response (.ok { orderID := 42, cid := some "tx:0", status := .statusCancelled })]
      [exampleOrderCompleteDeposit] exampleOrderCompleteDeposit).map
      (fun r => (r.2.1.status, r.2.1.passthrough.order.status,
                 r.2.1.passthrough.order.final, r.2.2))
    = some (Status.waitSend, "cancelled", true, none) := by
  decide

/-- C1 amended: when the polled order ends in a final status other than
Completed, the fatal-order marker (Status, Final=true, Original) is recorded
on the deposit, SkyBought is left unchanged (so remains 0 and the sender will
later reject the empty send), and handleDepositInfoState then updates the
store record to StatusWaitSend, returning no error: the deposit does advance
to WaitSend. -/
theorem c1_fatal_status_still_advances (precision : ℕ) (mb : Except PErr ℤ)
    (rest : List PollEvent) (s : Store) (di : DepositInfo) (order : COrder) (k : ℤ)
    (h1 : di.status = .waitPassthroughOrderComplete)
    (h2 : di.coinType = CoinTypeBTC)
    (h3 : di.depositID ≠ "")
    (h4 : getDepositInfo s di.depositID = some di)
    (h5 : toString order.orderID = di.passthrough.order.orderID)
    (h6 : order.cid = some di.passthrough.order.customerID)
    (h7 : order.status.notFinalized = false)
    (h7b : order.status ≠ .statusCompleted)
    (h9 : di.passthrough.order.orderID ≠ "")
    (hk : atoi di.passthrough.order.orderID = some k) :
    handleDepositInfoState precision mb (.response (.ok order) :: rest) s di =
      some (s.map (fun d => if d.depositID = di.depositID then
          { di with
            status := .waitSend
            passthrough := { di.passthrough with
              order := { di.passthrough.order with
                status := order.status.display
                final := true
                original := some order } } }
          else d),
        { di with
          status := .waitSend
          passthrough := { di.passthrough with
            order := { di.passthrough.order with
              status := order.status.display
              final := true
              original := some order } } },
        none) := by
  have hval : validateForStatus di = none := by
    unfold validateForStatus
    rw [if_neg h3, h1]
    simp [h9]
  have hWOC : waitOrderComplete di (.response (.ok order) :: rest) =
      some ({ di with passthrough := { di.passthrough with
        order := { di.passthrough.order with
          status := order.status.display
          final := true
          original := some order } } }, some .fatalOrderStatus) := by
    rw [waitOrderComplete_parses di _ k h9 hk]
    exact waitLoop_fatal di order rest h5 h6 h7 h7b
  have htr : validTransition di.status Status.waitSend = true := by rw [h1]; decide
  unfold handleDepositInfoState
  simp only [hval, h1, hWOC]
  rw [if_neg (by simp [h2])]
  rw [updateDepositInfo_found s di _ h4 htr]

/-- Witness for c1_fatal_status_still_advances at the concrete cancelled
order. -/
theorem c1_fatal_witness :
    (handleDepositInfoState 5 (.error .errQuit)
      [.response (.ok { orderID := 42, cid := some "tx:0", status := .statusExpired })]
      [exampleOrderCompleteDeposit] exampleOrderCompleteDeposit).map
      (fun r => (r.2.1.status, r.2.2))
    = some (Status.waitSend, none) := by
  rw [c1_fatal_status_still_advances 5 (.error .errQuit) []
    [exampleOrderCompleteDeposit] exampleOrderCompleteDeposit
    { orderID := 42, cid := some "tx:0", status := .statusExpired } 42
    rfl rfl (by decide) rfl (by decide) rfl rfl (by decide) (by decide) (by decide)]
  decide

/-- C4: when the polled order reaches Completed, handleDepositInfoState
computes SkyBought as CompletedAmount times the droplet multiplier truncated
to an integer, DepositValueSpent as CompletedAmount times AvgPrice times
SatoshisPerBTC truncated to an integer, records the order Status, Final=true,
Original, CompletedAmount and Price on the deposit, and transitions it to
StatusWaitSend; calculateSkyBought fails exactly when the computed droplet
amount is negative. -/
theorem c4_completed_order (precision : ℕ) (mb : Except PErr ℤ)
    (rest : List PollEvent) (s : Store) (di : DepositInfo) (order : COrder) (k : ℤ)
    (h1 : di.status = .waitPassthroughOrderComplete)
    (h2 : di.coinType = CoinTypeBTC)
    (h3 : di.depositID ≠ "")
    (h4 : getDepositInfo s di.depositID = some di)
    (h5 : toString order.orderID = di.passthrough.order.orderID)
    (h6 : order.cid = some di.passthrough.order.customerID)
    (h7 : order.status = .statusCompleted)
    (h8 : ¬ truncQ (order.completedAmount * (dropletMultiplier : ℚ)) < 0)
    (h9 : di.passthrough.order.orderID ≠ "")
    (hk : atoi di.passthrough.order.orderID = some k) :
    handleDepositInfoState precision mb (.response (.ok order) :: rest) s di =
      some (s.map (fun d => if d.depositID = di.depositID then
          { di with
            status := .waitSend
            passthrough := { di.passthrough with
              skyBought := (truncQ (order.completedAmount * (dropletMultiplier : ℚ))).toNat
              depositValueSpent := calculateBtcSpent order
              order := { di.passthrough.order with
                status := order.status.display
                final := true
                original := some order
                completedAmount := order.completedAmount
                price := order.avgPrice } } }
          else d),
        { di with
          status := .waitSend
          passthrough := { di.passthrough with
            skyBought := (truncQ (order.completedAmount * (dropletMultiplier : ℚ))).toNat
            depositValueSpent := calculateBtcSpent order
            order := { di.passthrough.order with
              status := order.status.display
              final := true
              original := some order
              completedAmount := order.completedAmount
              price := order.avgPrice } } },
        none) ∧
    calculateBtcSpent order =
      truncQ (order.completedAmount * order.avgPrice * (SatoshisPerBTC : ℚ)) ∧
    (∀ o : COrder, calculateSkyBought o = .error .completedAmountNegative ↔
      truncQ (o.completedAmount * (dropletMultiplier : ℚ)) < 0) := by
  refine ⟨?_, rfl, ?_⟩
  · have hval : validateForStatus di = none := by
      unfold validateForStatus
      rw [if_neg h3, h1]
      simp [h9]
    have hWOC : waitOrderComplete di (.response (.ok order) :: rest) =
        some ({ di with passthrough := { di.passthrough with
          skyBought := (truncQ (order.completedAmount * (dropletMultiplier : ℚ))).toNat
          depositValueSpent := calculateBtcSpent order
          order := { di.passthrough.order with
            status := order.status.display
            final := true
            original := some order
            completedAmount := order.completedAmount
            price := order.avgPrice } } }, none) := by
      rw [waitOrderComplete_parses di _ k h9 hk]
      exact waitLoop_completed di order rest h5 h6 h7 h8
    have htr : validTransition di.status Status.waitSend = true := by rw [h1]; decide
    unfold handleDepositInfoState
    simp only [hval, h1, hWOC]
    rw [if_neg (by simp [h2])]
    rw [updateDepositInfo_found s di _ h4 htr]
  · intro o
    unfold calculateSkyBought
    by_cases h : truncQ (o.completedAmount * (dropletMultiplier : ℚ)) < 0 <;> simp [h]

/-- Witness for c4_completed_order: order 42 completes with CompletedAmount
100 SKY at average price 1/200 BTC, yielding 100e6 droplets bought and 5e7
satoshis spent. -/
theorem c4_completed_order_witness :
    (handleDepositInfoState 5 (.error .errQuit)
      [.response (.ok { orderID := 42, cid := some "tx:0", status := .statusCompleted,
                        completedAmount := 100, avgPrice := 1/200 })]
      [exampleOrderCompleteDeposit] exampleOrderCompleteDeposit).map
      (fun r => (r.2.1.status, r.2.1.passthrough.skyBought,
                 r.2.1.passthrough.depositValueSpent, r.2.2))
    = some (Status.waitSend, 100000000, 50000000, none) := by
  rw [(c4_completed_order 5 (.error .errQuit) []
    [exampleOrderCompleteDeposit] exampleOrderCompleteDeposit
    { orderID := 42, cid := some "tx:0", status := .statusCompleted,
      completedAmount := 100, avgPrice := 1/200 } 42
    rfl rfl (by decide) rfl (by decide) rfl rfl (by decide) (by decide) (by decide)).1]
  decide

/-- C5: for a deposit at StatusWaitDecide, handleDepositInfoState performs a
single keyed store update that sets Status to WaitPassthrough,
Passthrough.ExchangeName to the C2CX exchange name,
Passthrough.RequestedAmount to the deposit value in satoshis converted to
decimal BTC and truncated to the exchange BTC/SKY price precision, and
Passthrough.Order.CustomerID to the DepositID. -/
theorem c5_wait_decide_update (precision : ℕ) (mb : Except PErr ℤ)
    (events : List PollEvent) (s : Store) (di : DepositInfo)
    (h1 : di.status = .waitDecide)
    (h2 : di.coinType = CoinTypeBTC)
    (h3 : di.depositID ≠ "")
    (h4 : getDepositInfo s di.depositID = some di) :
    handleDepositInfoState precision mb events s di =
      some (s.map (fun d => if d.depositID = di.depositID then
          { di with
            status := .waitPassthrough
            passthrough := { di.passthrough with
              exchangeName := PassthroughExchangeC2CX
              requestedAmount := calculateRequestedAmount precision di.depositValue
              order := { di.passthrough.order with customerID := di.depositID } } }
          else d),
        { di with
          status := .waitPassthrough
          passthrough := { di.passthrough with
            exchangeName := PassthroughExchangeC2CX
            requestedAmount := calculateRequestedAmount precision di.depositValue
            order := { di.passthrough.order with customerID := di.depositID } } },
        none) ∧
    calculateRequestedAmount precision di.depositValue =
      truncateTo ((di.depositValue : ℚ) / ((10 : ℚ) ^ (8 : ℕ))) precision := by
  refine ⟨?_, rfl⟩
  have hval : validateForStatus di = none := by
    unfold validateForStatus
    rw [if_neg h3, h1]
  have htr : validTransition di.status Status.waitPassthrough = true := by rw [h1]; decide
  unfold handleDepositInfoState
  simp only [hval, h1]
  rw [if_neg (by simp [h2])]
  rw [updateDepositInfo_found s di _ h4 htr]

/-- Witness for c5_wait_decide_update: a one-BTC deposit at WaitDecide moves
to WaitPassthrough with RequestedAmount 1 BTC and CustomerID "tx:0". -/
theorem c5_wait_decide_update_witness :
    (handleDepositInfoState 5 (.error .errQuit) [] [exampleWaitDecideDeposit]
      exampleWaitDecideDeposit).map
      (fun r => (r.2.1.status, r.2.1.passthrough.exchangeName,
                 r.2.1.passthrough.requestedAmount,
                 r.2.1.passthrough.order.customerID, r.2.2))
    = some (Status.waitPassthrough, "c2cx", 1, "tx:0", none) := by
  rw [(c5_wait_decide_update 5 (.error .errQuit) [] [exampleWaitDecideDeposit]
    exampleWaitDecideDeposit rfl rfl (by decide) rfl).1]
  decide

/-- C2: the passthrough retry loop classifies every error returned by
handleDepositInfoState exactly as: a c2cx APIError whose message starts with
"limit value:" fails the deposit (error returned, record unchanged); an
APIError with message "Too Many Requests" retries after RatelimitWait; any
other APIError, any other c2cx error or net.Error retries after
RequestFailureWait; the quit signal exits without error; any other non-nil
error fails; a nil error proceeds. In every case the loop leaves the deposit
record unchanged, so no state is advanced between retry attempts. -/
theorem c2_error_classification (cfg : C2CXConfig) (di : DepositInfo) :
    (∀ msg, hasPrefix "limit value:" msg = true →
      retryLoopStep cfg di (some (.apiError msg)) = (di, .failWith (.apiError msg))) ∧
    (retryLoopStep cfg di (some (.apiError "Too Many Requests")) =
      (di, .wait cfg.ratelimitWait)) ∧
    (∀ msg, hasPrefix "limit value:" msg = false → msg ≠ "Too Many Requests" →
      retryLoopStep cfg di (some (.apiError msg)) = (di, .wait cfg.requestFailureWait)) ∧
    (∀ msg, retryLoopStep cfg di (some (.otherC2CXError msg)) =
      (di, .wait cfg.requestFailureWait)) ∧
    (∀ msg, retryLoopStep cfg di (some (.netError msg)) =
      (di, .wait cfg.requestFailureWait)) ∧
    (retryLoopStep cfg di (some .errQuit) = (di, .exitLoop)) ∧
    (∀ msg, retryLoopStep cfg di (some (.other msg)) = (di, .failWith (.other msg))) ∧
    (∀ msg, retryLoopStep cfg di (some (.storeError msg)) =
      (di, .failWith (.storeError msg))) ∧
    (retryLoopStep cfg di (some .depositStatusInvalid) =
      (di, .failWith .depositStatusInvalid)) ∧
    (retryLoopStep cfg di (some .unsupportedCoinType) =
      (di, .failWith .unsupportedCoinType)) ∧
    (retryLoopStep cfg di none = (di, .proceed)) := by
  refine ⟨?_, ?_, ?_, ?_, ?_, ?_, ?_, ?_, ?_, ?_, ?_⟩
  · intro msg h
    have hne : msg ≠ "Too Many Requests" := by
      intro he
      subst he
      exact absurd h (by decide)
    simp [retryLoopStep, classifyError, h, hne]
  · simp [retryLoopStep, classifyError]
  · intro msg h hne
    simp [retryLoopStep, classifyError, h, hne]
  · intro msg; simp [retryLoopStep, classifyError]
  · intro msg; simp [retryLoopStep, classifyError]
  · simp [retryLoopStep, classifyError]
  · intro msg; simp [retryLoopStep, classifyError]
  · intro msg; simp [retryLoopStep, classifyError]
  · simp [retryLoopStep, classifyError]
  · simp [retryLoopStep, classifyError]
  · simp [retryLoopStep]

/-- Witness for c2_error_classification at a concrete configuration: a
low-volume rejection message fails, and an unrecognized API message retries
after RequestFailureWait. -/
theorem c2_error_classification_witness :
    retryLoopStep { requestFailureWait := 10000000000, ratelimitWait := 30000000000 }
      {} (some (.apiError "limit value: 0.005")) =
      ({}, .failWith (.apiError "limit value: 0.005")) ∧
    retryLoopStep { requestFailureWait := 10000000000, ratelimitWait := 30000000000 }
      {} (some (.apiError "server error")) = ({}, .wait 10000000000) :=
  ⟨(c2_error_classification
      { requestFailureWait := 10000000000, ratelimitWait := 30000000000 } {}).1
      "limit value: 0.005" (by decide),
   (c2_error_classification
      { requestFailureWait := 10000000000, ratelimitWait := 30000000000 } {}).2.2.1
      "server error" (by decide) (by decide)⟩

/-- C6 counterexample: with check_order_wait configured to 5 seconds, the
waiting period actually used between GetOrderInfo polls is not the configured
value (the source uses the package constant checkOrderWait = 2 seconds at
src/unnamed/part_001 line 536). -/
theorem c6_counterexample :
    pollWaitBetweenAttempts { checkOrderWait := 5000000000 } ≠
      ({ checkOrderWait := 5000000000 } : C2CXConfig).checkOrderWait := by
  decide

/-- C6 amended: the waiting period between successive GetOrderInfo polls is
the package constant checkOrderWait = 2 seconds, independent of the configured
c2cx check_order_wait; and while the polled order's status is one of Partial,
Pending, Active, Suspended, TriggerPending or StopLossPending (exactly the
not-finalized statuses), the loop keeps polling. -/
theorem c6_poll_wait_and_transient_statuses (cfg : C2CXConfig) :
    pollWaitBetweenAttempts cfg = checkOrderWait ∧
    checkOrderWait = 2000000000 ∧
    (∀ (di : DepositInfo) (order : COrder) (rest : List PollEvent),
      toString order.orderID = di.passthrough.order.orderID →
      order.cid = some di.passthrough.order.customerID →
      order.status.notFinalized = true →
      waitLoop di (.response (.ok order) :: rest) = waitLoop di rest) ∧
    (∀ st : OrderStatus, st.notFinalized = true ↔
      (st = .statusPartial ∨ st = .statusPending ∨ st = .statusActive ∨
       st = .statusSuspended ∨ st = .statusTriggerPending ∨
       st = .statusStopLossPending)) := by
  refine ⟨rfl, rfl, ?_, ?_⟩
  · intro di order rest h1 h2 h3
    simp [waitLoop, h1, h2, h3]
  · intro st
    cases st <;> simp [OrderStatus.notFinalized]

/-- Witness for c6_poll_wait_and_transient_statuses: a matching suspended
order keeps the loop polling on the remaining script. -/
theorem c6_poll_wait_witness :
    waitLoop { passthrough := { order := { customerID := "tx:0", orderID := "42" } } }
      [.response (.ok { orderID := 42, cid := some "tx:0", status := .statusSuspended })] =
    waitLoop { passthrough := { order := { customerID := "tx:0", orderID := "42" } } } [] :=
  (c6_poll_wait_and_transient_statuses {}).2.2.1
    { passthrough := { order := { customerID := "tx:0", orderID := "42" } } }
    { orderID := 42, cid := some "tx:0", status := .statusSuspended }
    [] (by decide) (by decide) (by decide)

/-- C7: every GetOrderInfo response whose OrderID differs from the stored
Passthrough.Order.OrderID, or whose CID is absent or differs from the stored
CustomerID, aborts processing of that deposit with an error before any
order-status handling; the deposit record is returned unchanged, never
advanced from a mismatched order. -/
theorem c7_order_sanity_checks (di : DepositInfo) (order : COrder)
    (rest : List PollEvent) :
    (toString order.orderID ≠ di.passthrough.order.orderID →
      waitLoop di (.response (.ok order) :: rest) =
        some (di, some (.other "order.OrderID != di.Passthrough.OrderID unexpectedly"))) ∧
    (toString order.orderID = di.passthrough.order.orderID →
      (order.cid = none ∨ order.cid ≠ some di.passthrough.order.customerID) →
      waitLoop di (.response (.ok order) :: rest) =
        some (di, some (.other "order.CID != di.Passthrough.Order.CustomerID unexpectedly"))) := by
  constructor
  · intro h
    simp [waitLoop, h]
  · intro h1 h2
    simp only [waitLoop]
    rw [if_neg (by simp [h1]), if_pos h2]

/-- Witness for c7_order_sanity_checks: a response whose OrderID is 43 while
the stored OrderID is "42" aborts with the mismatch error. -/
theorem c7_order_sanity_checks_witness :
    waitLoop { passthrough := { order := { customerID := "tx:0", orderID := "42" } } }
      [.response (.ok { orderID := 43, cid := some "tx:0", status := .statusCompleted })] =
    some ({ passthrough := { order := { customerID := "tx:0", orderID := "42" } } },
      some (.other "order.OrderID != di.Passthrough.OrderID unexpectedly")) :=
  (c7_order_sanity_checks
    { passthrough := { order := { customerID := "tx:0", orderID := "42" } } }
    { orderID := 43, cid := some "tx:0", status := .statusCompleted } []).1 (by decide)

/-- C8: for every scanner deposit event, nil is written to the event's
acknowledgement channel exactly when the store write succeeds and the store's
error is written otherwise; a failed event is never re-enqueued in-process
(the restart-required marker is logged instead), and the receiver loop keeps
processing the remaining events. -/
theorem c8_save_incoming_deposit_ack :
    (∀ di : DepositInfo, saveIncomingDeposit (.ok di) =
      { ack := none, requeued := false, logRestartMarker := false }) ∧
    (∀ e : String, saveIncomingDeposit (.error e) =
      { ack := some e, requeued := false, logRestartMarker := true }) ∧
    (∀ r : Except String DepositInfo, (saveIncomingDeposit r).requeued = false) ∧
    (∀ (r : Except String DepositInfo) (rest : List (Except String DepositInfo)),
      receiverLoop (r :: rest) = saveIncomingDeposit r :: receiverLoop rest) := by
  refine ⟨fun di => rfl, fun e => rfl, ?_, fun r rest => rfl⟩
  intro r
  cases r <;> rfl

/-- C9: the direct-path happy case with a binding from "sky-a" to "btc-a", a
scanner event of 1e8 satoshis at rate 100: the created record is at WaitSend
with the rate snapshotted; after the sender submits, the record holds the
returned Txid at WaitConfirm with SkySent = 100e6 droplets; after the
transaction confirms, the record is Done with SkySent = 100e6. -/
theorem c9_direct_happy_path :
    (directCreate "sky-a" "btc-a" 100000000 "t" 2 100).status = Status.waitSend ∧
    (directCreate "sky-a" "btc-a" 100000000 "t" 2 100).conversionRate = "100" ∧
    (directCreate "sky-a" "btc-a" 100000000 "t" 2 100).depositID = "t:2" ∧
    (directSend (directCreate "sky-a" "btc-a" 100000000 "t" 2 100) 100 3
      "foo-sky-txid").status = Status.waitConfirm ∧
    (directSend (directCreate "sky-a" "btc-a" 100000000 "t" 2 100) 100 3
      "foo-sky-txid").txid = "foo-sky-txid" ∧
    (directSend (directCreate "sky-a" "btc-a" 100000000 "t" 2 100) 100 3
      "foo-sky-txid").skySent = 100000000 ∧
    (directConfirm (directSend (directCreate "sky-a" "btc-a" 100000000 "t" 2 100) 100 3
      "foo-sky-txid") true).status = Status.done ∧
    (directConfirm (directSend (directCreate "sky-a" "btc-a" 100000000 "t" 2 100) 100 3
      "foo-sky-txid") true).skySent = 100000000 := by
  decide

/-- C10 counterexample: for the configuration whose BtcRPC.User is the
non-empty literal redaction string, the redacted copy's BtcRPC.User equals
the original credential value, so a non-empty original credential value does
appear in the redacted copy. -/
theorem c10_counterexample :
    ({ btcRPC := { user := "<redacted>" } } : Config).btcRPC.user ≠ "" ∧
    (Config.redacted { btcRPC := { user := "<redacted>" } }).btcRPC.user =
      ({ btcRPC := { user := "<redacted>" } } : Config).btcRPC.user := by
  decide

/-- C10 amended: Redacted returns a copy in which BtcRPC.User, BtcRPC.Pass,
SkyExchanger.C2CX.Key and SkyExchanger.C2CX.Secret are replaced by
"<redacted>" whenever non-empty (left empty otherwise) and every other field
is unchanged; consequently no non-empty original credential value other than
the literal "<redacted>" itself remains in its field of the redacted copy. -/
theorem c10_redacted_spec (c : Config) :
    c.redacted = { c with
      btcRPC := { c.btcRPC with
        user := if c.btcRPC.user = "" then "" else redactedStr
        pass := if c.btcRPC.pass = "" then "" else redactedStr }
      skyExchanger := { c.skyExchanger with
        c2cx := { c.skyExchanger.c2cx with
          key := if c.skyExchanger.c2cx.key = "" then "" else redactedStr
          secret := if c.skyExchanger.c2cx.secret = "" then "" else redactedStr } } } ∧
    (c.btcRPC.user ≠ "" → c.btcRPC.user ≠ redactedStr →
      (c.redacted).btcRPC.user ≠ c.btcRPC.user) ∧
    (c.btcRPC.pass ≠ "" → c.btcRPC.pass ≠ redactedStr →
      (c.redacted).btcRPC.pass ≠ c.btcRPC.pass) ∧
    (c.skyExchanger.c2cx.key ≠ "" → c.skyExchanger.c2cx.key ≠ redactedStr →
      (c.redacted).skyExchanger.c2cx.key ≠ c.skyExchanger.c2cx.key) ∧
    (c.skyExchanger.c2cx.secret ≠ "" → c.skyExchanger.c2cx.secret ≠ redactedStr →
      (c.redacted).skyExchanger.c2cx.secret ≠ c.skyExchanger.c2cx.secret) := by
  have heq : c.redacted = { c with
      btcRPC := { c.btcRPC with
        user := if c.btcRPC.user = "" then "" else redactedStr
        pass := if c.btcRPC.pass = "" then "" else redactedStr }
      skyExchanger := { c.skyExchanger with
        c2cx := { c.skyExchanger.c2cx with
          key := if c.skyExchanger.c2cx.key = "" then "" else redactedStr
          secret := if c.skyExchanger.c2cx.secret = "" then "" else redactedStr } } } := by
    obtain ⟨d1, d2, d3, d4, d5, d6, d7, d8, d9, d10, d11,
      ⟨bserver, buser, bpass, bcert⟩, d13, d14, d15, d16,
      ⟨e1, e2, e3, e4, e5, e6, e7, e8, ⟨ckey, csecret, w1, w2, w3, w4⟩⟩,
      d18, d19, d20⟩ := c
    unfold Config.redacted
    by_cases h1 : buser = "" <;>
      by_cases h2 : bpass = "" <;>
        by_cases h3 : ckey = "" <;>
          by_cases h4 : csecret = "" <;>
            simp [h1, h2, h3, h4]
  refine ⟨heq, ?_, ?_, ?_, ?_⟩
  · intro h1 h2
    rw [heq]
    simpa [h1] using fun he => h2 he.symm
  · intro h1 h2
    rw [heq]
    simpa [h1] using fun he => h2 he.symm
  · intro h1 h2
    rw [heq]
    simpa [h1] using fun he => h2 he.symm
  · intro h1 h2
    rw [heq]
    simpa [h1] using fun he => h2 he.symm

/-- Witness for c10_redacted_spec at a concrete configuration with all four
credentials set. -/
theorem c10_redacted_spec_witness :
    (Config.redacted { btcRPC := { server := "127.0.0.1:8334", user := "u", pass := "p" }
                       skyExchanger := { c2cx := { key := "k", secret := "s" } } }) =
      { btcRPC := { server := "127.0.0.1:8334", user := "<redacted>", pass := "<redacted>" }
        skyExchanger := { c2cx := { key := "<redacted>", secret := "<redacted>" } } } ∧
    (Config.redacted { btcRPC := { server := "127.0.0.1:8334", user := "u", pass := "p" }
                       skyExchanger := { c2cx := { key := "k", secret := "s" } } }).btcRPC.user
      ≠ "u" := by
  have h := c10_redacted_spec
    { btcRPC := { server := "127.0.0.1:8334", user := "u", pass := "p" }
      skyExchanger := { c2cx := { key := "k", secret := "s" } } }
  refine ⟨?_, h.2.1 (by decide) (by decide)⟩
  rw [h.1]
  decide

theorem recordOrderOnDeposit_depositID (o : COrder) (d : DepositInfo) :
    (recordOrderOnDeposit o d).depositID = d.depositID := rfl

theorem recordOrderOnDeposit_status (o : COrder) (d : DepositInfo) :
    (recordOrderOnDeposit o d).status = Status.waitPassthroughOrderComplete := rfl

theorem recordOrderOnDeposit_idem (o : COrder) (d : DepositInfo) :
    recordOrderOnDeposit o (recordOrderOnDeposit o d) = recordOrderOnDeposit o d := rfl

theorem cidLookup_some (pending : List DepositInfo) (c : String) (x : DepositInfo)
    (h : cidLookup pending c = some x) :
    x ∈ pending ∧ x.passthrough.order.customerID = c := by
  unfold cidLookup at h
  suffices hgen : ∀ (l : List DepositInfo) (acc : Option DepositInfo),
      l.foldl (fun acc di =>
        if di.passthrough.order.customerID = c then some di else acc) acc = some x →
      (x ∈ l ∧ x.passthrough.order.customerID = c) ∨ acc = some x by
    rcases hgen pending none h with h1 | h2
    · exact h1
    · exact absurd h2 (by simp)
  intro l
  induction l with
  | nil => intro acc h; right; exact h
  | cons a l ih =>
    intro acc h
    rw [List.foldl_cons] at h
    rcases ih _ h with h1 | h2
    · exact Or.inl ⟨List.mem_cons_of_mem _ h1.1, h1.2⟩
    · by_cases ha : a.passthrough.order.customerID = c
      · rw [if_pos ha] at h2
        obtain rfl : a = x := Option.some.inj h2
        exact Or.inl ⟨List.mem_cons_self a l, ha⟩
      · rw [if_neg ha] at h2
        right; exact h2

theorem cidLookup_self (pending : List DepositInfo) (di : DepositInfo)
    (hmem : di ∈ pending)
    (hinj : ∀ x ∈ pending,
      x.passthrough.order.customerID = di.passthrough.order.customerID → x = di) :
    cidLookup pending di.passthrough.order.customerID = some di := by
  unfold cidLookup
  have hkeep : ∀ (l : List DepositInfo),
      (∀ x ∈ l,
        x.passthrough.order.customerID = di.passthrough.order.customerID → x = di) →
      l.foldl (fun acc x =>
        if x.passthrough.order.customerID = di.passthrough.order.customerID
        then some x else acc) (some di) = some di := by
    intro l
    induction l with
    | nil => intro _; rfl
    | cons a l ih =>
      intro hall
      rw [List.foldl_cons]
      by_cases ha : a.passthrough.order.customerID = di.passthrough.order.customerID
      · rw [if_pos ha, hall a (List.mem_cons_self a l) ha]
        exact ih fun x hx => hall x (List.mem_cons_of_mem _ hx)
      · rw [if_neg ha]
        exact ih fun x hx => hall x (List.mem_cons_of_mem _ hx)
  induction pending with
  | nil => cases hmem
  | cons a l ih =>
    rw [List.foldl_cons]
    by_cases ha : a.passthrough.order.customerID = di.passthrough.order.customerID
    · rw [if_pos ha, hinj a (List.mem_cons_self a l) ha]
      exact hkeep l fun x hx => hinj x (List.mem_cons_of_mem _ hx)
    · rw [if_neg ha]
      have hdi : di ∈ l := by
        rcases List.mem_cons.mp hmem with h | h
        · exact absurd (h ▸ rfl) ha
        · exact h
      exact ih hdi fun x hx => hinj x (List.mem_cons_of_mem _ hx)

theorem orderEffect_depositID (pending : List DepositInfo) (d : DepositInfo)
    (o : COrder) : (orderEffect pending d o).depositID = d.depositID := by
  cases hcid : o.cid with
  | none => simp [orderEffect, hcid]
  | some c =>
    cases hc : cidLookup pending c with
    | none => simp [orderEffect, hcid, hc]
    | some di0 =>
      by_cases h : d.depositID = di0.depositID <;>
        simp [orderEffect, recordOrderOnDeposit, hcid, hc, h]

theorem orderEffect_status (pending : List DepositInfo) (d : DepositInfo)
    (o : COrder) : (orderEffect pending d o).status = d.status ∨
      (orderEffect pending d o).status = Status.waitPassthroughOrderComplete := by
  cases hcid : o.cid with
  | none => exact Or.inl (by simp [orderEffect, hcid])
  | some c =>
    cases hc : cidLookup pending c with
    | none => exact Or.inl (by simp [orderEffect, hcid, hc])
    | some di0 =>
      by_cases h : d.depositID = di0.depositID
      · exact Or.inr (by simp [orderEffect, recordOrderOnDeposit, hcid, hc, h])
      · exact Or.inl (by simp [orderEffect, hcid, hc, h])

theorem orderEffect_of_not_fires (pending : List DepositInfo) (d : DepositInfo)
    (o : COrder) (h : ¬ firesOn pending o d.depositID) :
    orderEffect pending d o = d := by
  cases hcid : o.cid with
  | none => simp [orderEffect, hcid]
  | some c =>
    cases hc : cidLookup pending c with
    | none => simp [orderEffect, hcid, hc]
    | some di0 =>
      have h2 : ¬ d.depositID = di0.depositID := by
        intro he
        apply h
        simp only [firesOn, hcid, hc]
        exact he.symm
      simp [orderEffect, hcid, hc, h2]

theorem orderEffect_of_fires (pending : List DepositInfo) (d : DepositInfo)
    (o : COrder) (h : firesOn pending o d.depositID) :
    orderEffect pending d o = recordOrderOnDeposit o d := by
  cases hcid : o.cid with
  | none => simp [firesOn, hcid] at h
  | some c =>
    cases hc : cidLookup pending c with
    | none => simp [firesOn, hcid, hc] at h
    | some di0 =>
      have h2 : di0.depositID = d.depositID := by
        have h3 := h
        simp only [firesOn, hcid, hc] at h3
        exact h3
      simp [orderEffect, hcid, hc, h2.symm]

theorem find?_congr_mem (l : List DepositInfo) (p q : DepositInfo → Bool)
    (h : ∀ a ∈ l, p a = q a) : l.find? p = l.find? q := by
  induction l with
  | nil => rfl
  | cons a l ih =>
    have ha := h a (List.mem_cons_self a l)
    rw [List.find?_cons, List.find?_cons, ha]
    cases q a with
    | true => rfl
    | false => exact ih fun x hx => h x (List.mem_cons_of_mem _ hx)

theorem find?_unique_mem (s : Store) (di : DepositInfo)
    (hid : ∀ a ∈ s, ∀ b ∈ s, a.depositID = b.depositID → a = b)
    (hmem : di ∈ s) :
    s.find? (fun d => d.depositID = di.depositID) = some di := by
  induction s with
  | nil => cases hmem
  | cons a l ih =>
    by_cases ha : a.depositID = di.depositID
    · rw [List.find?_cons_of_pos _ (by simp [ha])]
      rw [hid a (List.mem_cons_self a l) di hmem ha]
    · rw [List.find?_cons_of_neg _ (by simp [ha])]
      have hdi : di ∈ l := by
        rcases List.mem_cons.mp hmem with h | h
        · exact absurd (by rw [h]) ha
        · exact h
      exact ih
        (fun x hx y hy => hid x (List.mem_cons_of_mem _ hx) y (List.mem_cons_of_mem _ hy))
        hdi

theorem getDepositInfo_map_eff (s : Store) (eff : DepositInfo → DepositInfo)
    (heff : ∀ d, (eff d).depositID = d.depositID)
    (hid : ∀ a ∈ s, ∀ b ∈ s, a.depositID = b.depositID → a = b)
    (di : DepositInfo) (hmem : di ∈ s) :
    getDepositInfo (s.map eff) di.depositID = some (eff di) := by
  unfold getDepositInfo
  rw [List.find?_map]
  rw [find?_congr_mem s _ (fun d => d.depositID = di.depositID)
    (fun a _ => by simp [Function.comp, heff a])]
  rw [find?_unique_mem s di hid hmem]
  rfl

theorem ordersEffect_cons (pending : List DepositInfo) (o : COrder)
    (os : List COrder) (d : DepositInfo) :
    ordersEffect pending (o :: os) d = ordersEffect pending os (orderEffect pending d o) :=
  rfl

theorem ordersEffect_depositID (pending : List DepositInfo) (orders : List COrder)
    (d : DepositInfo) : (ordersEffect pending orders d).depositID = d.depositID := by
  induction orders generalizing d with
  | nil => rfl
  | cons o os ih =>
    rw [ordersEffect_cons, ih, orderEffect_depositID]

theorem ordersEffect_status (pending : List DepositInfo) (orders : List COrder)
    (d : DepositInfo) : (ordersEffect pending orders d).status = d.status ∨
      (ordersEffect pending orders d).status = Status.waitPassthroughOrderComplete := by
  induction orders generalizing d with
  | nil => exact Or.inl rfl
  | cons o os ih =>
    rw [ordersEffect_cons]
    rcases ih (orderEffect pending d o) with h | h
    · rw [h]
      exact orderEffect_status pending d o
    · exact Or.inr h

theorem ordersEffect_of_not_fires (pending : List DepositInfo) (orders : List COrder)
    (d : DepositInfo) (h : ∀ o ∈ orders, ¬ firesOn pending o d.depositID) :
    ordersEffect pending orders d = d := by
  induction orders with
  | nil => rfl
  | cons o os ih =>
    rw [ordersEffect_cons, orderEffect_of_not_fires pending d o (h o (List.mem_cons_self o os))]
    exact ih fun x hx => h x (List.mem_cons_of_mem _ hx)

theorem ordersEffect_stable (pending : List DepositInfo) (orders : List COrder)
    (o : COrder) (di : DepositInfo)
    (h : ∀ o2 ∈ orders, firesOn pending o2 di.depositID → o2 = o) :
    ordersEffect pending orders (recordOrderOnDeposit o di) = recordOrderOnDeposit o di := by
  induction orders with
  | nil => rfl
  | cons a os ih =>
    rw [ordersEffect_cons]
    by_cases hfa : firesOn pending a (recordOrderOnDeposit o di).depositID
    · have ha : a = o := h a (List.mem_cons_self a os) hfa
      subst ha
      rw [orderEffect_of_fires pending _ a hfa, recordOrderOnDeposit_idem]
      exact ih fun x hx => h x (List.mem_cons_of_mem _ hx)
    · rw [orderEffect_of_not_fires pending _ a hfa]
      exact ih fun x hx => h x (List.mem_cons_of_mem _ hx)

theorem ordersEffect_unique_fire (pending : List DepositInfo) (orders : List COrder)
    (o : COrder) (di : DepositInfo)
    (ho : o ∈ orders) (hf : firesOn pending o di.depositID)
    (huniq : ∀ o2 ∈ orders, firesOn pending o2 di.depositID → o2 = o) :
    ordersEffect pending orders di = recordOrderOnDeposit o di := by
  induction orders with
  | nil => cases ho
  | cons a os ih =>
    rw [ordersEffect_cons]
    by_cases hfa : firesOn pending a di.depositID
    · have ha : a = o := huniq a (List.mem_cons_self a os) hfa
      subst ha
      rw [orderEffect_of_fires pending di a hfa]
      exact ordersEffect_stable pending os a di
        fun x hx hfx => huniq x (List.mem_cons_of_mem _ hx) hfx
    · have ho' : o ∈ os := by
        rcases List.mem_cons.mp ho with h | h
        · exact absurd (h ▸ hf) hfa
        · exact h
      rw [orderEffect_of_not_fires pending di a hfa]
      exact ih ho' fun x hx => huniq x (List.mem_cons_of_mem _ hx)

theorem fix_foldl (s : Store) (pending : List DepositInfo)
    (hid : ∀ a ∈ s, ∀ b ∈ s, a.depositID = b.depositID → a = b)
    (hpend : ∀ d ∈ pending, d ∈ s ∧ d.status = Status.waitPassthrough)
    (orders : List COrder) :
    ∀ (g : DepositInfo → DepositInfo) (ups : List DepositInfo),
    (∀ d, (g d).depositID = d.depositID) →
    (∀ d, (g d).status = d.status ∨ (g d).status = Status.waitPassthroughOrderComplete) →
    ∃ ups2, orders.foldl (fixStep pending) (s.map g, ups, none) =
      (s.map (fun d => ordersEffect pending orders (g d)), ups2, none) := by
  induction orders with
  | nil =>
    intro g ups hg1 hg2
    exact ⟨ups, by simp [ordersEffect]⟩
  | cons o os ih =>
    intro g ups hg1 hg2
    rw [List.foldl_cons]
    cases hcid : o.cid with
    | none =>
      have hstep : fixStep pending (s.map g, ups, none) o = (s.map g, ups, none) := by
        simp [fixStep, hcid]
      rw [hstep]
      obtain ⟨ups2, h2⟩ := ih g ups hg1 hg2
      refine ⟨ups2, ?_⟩
      rw [h2]
      have hmaps : s.map (fun d => ordersEffect pending os (g d)) =
          s.map (fun d => ordersEffect pending (o :: os) (g d)) := by
        apply List.map_congr_left
        intro d _
        rw [ordersEffect_cons,
          orderEffect_of_not_fires pending (g d) o (by simp [firesOn, hcid])]
      rw [hmaps]
    | some c =>
      cases hc : cidLookup pending c with
      | none =>
        have hstep : fixStep pending (s.map g, ups, none) o = (s.map g, ups, none) := by
          simp [fixStep, hcid, hc]
        rw [hstep]
        obtain ⟨ups2, h2⟩ := ih g ups hg1 hg2
        refine ⟨ups2, ?_⟩
        rw [h2]
        have hmaps : s.map (fun d => ordersEffect pending os (g d)) =
            s.map (fun d => ordersEffect pending (o :: os) (g d)) := by
          apply List.map_congr_left
          intro d _
          rw [ordersEffect_cons,
            orderEffect_of_not_fires pending (g d) o (by simp [firesOn, hcid, hc])]
        rw [hmaps]
      | some di0 =>
        obtain ⟨hdi0mem, hdi0st⟩ := hpend di0 (cidLookup_some pending c di0 hc).1
        have hfind : (s.map g).find? (fun d => d.depositID = di0.depositID) =
            some (g di0) := by
          rw [List.find?_map]
          rw [find?_congr_mem s _ (fun d => d.depositID = di0.depositID)
            (fun a _ => by simp [Function.comp, hg1 a])]
          rw [find?_unique_mem s di0 hid hdi0mem]
          rfl
        have hvalid : validTransition (g di0).status
            (recordOrderOnDeposit o (g di0)).status = true := by
          rw [recordOrderOnDeposit_status]
          rcases hg2 di0 with h | h <;> rw [h]
          · rw [hdi0st]; decide
          · decide
        have hupd : updateDepositInfo (s.map g) di0.depositID (recordOrderOnDeposit o) =
            ((s.map g).map (fun d => if d.depositID = di0.depositID
              then recordOrderOnDeposit o (g di0) else d),
             recordOrderOnDeposit o (g di0), none) := by
          unfold updateDepositInfo
          rw [hfind]
          simp [hvalid]
        have hstep : fixStep pending (s.map g, ups, none) o =
            ((s.map g).map (fun d => if d.depositID = di0.depositID
              then recordOrderOnDeposit o (g di0) else d),
             ups ++ [recordOrderOnDeposit o (g di0)], none) := by
          simp [fixStep, hcid, hc, hupd]
        rw [hstep]
        have hg2fun : (s.map g).map (fun d => if d.depositID = di0.depositID
              then recordOrderOnDeposit o (g di0) else d) =
            s.map (fun d => orderEffect pending (g d) o) := by
          rw [List.map_map]
          apply List.map_congr_left
          intro d hd
          simp only [Function.comp]
          by_cases hd0 : (g d).depositID = di0.depositID
          · rw [if_pos hd0]
            have hddi : d = di0 := hid d hd di0 hdi0mem (by rw [← hg1 d, hd0])
            subst hddi
            rw [orderEffect_of_fires pending (g d) o
              (by simp only [firesOn, hcid, hc]; exact (hg1 d).symm)]
          · rw [if_neg hd0]
            rw [orderEffect_of_not_fires pending (g d) o]
            intro hf
            simp only [firesOn, hcid, hc] at hf
            exact hd0 hf.symm
        rw [hg2fun]
        obtain ⟨ups2, h2⟩ := ih (fun d => orderEffect pending (g d) o)
          (ups ++ [recordOrderOnDeposit o (g di0)])
          (fun d => by rw [orderEffect_depositID]; exact hg1 d)
          (fun d => by
            rcases orderEffect_status pending (g d) o with h | h
            · rw [h]; exact hg2 d
            · exact Or.inr h)
        refine ⟨ups2, ?_⟩
        rw [h2]
        have hmaps : s.map (fun d => ordersEffect pending os (orderEffect pending (g d) o)) =
            s.map (fun d => ordersEffect pending (o :: os) (g d)) := by
          apply List.map_congr_left
          intro d _
          rw [ordersEffect_cons]
        rw [hmaps]

theorem orderEffect_nil_pending (o : COrder) (d : DepositInfo) :
    orderEffect [] d o = d := by
  cases hcid : o.cid with
  | none => simp [orderEffect, hcid]
  | some c => simp [orderEffect, hcid, cidLookup]

theorem ordersEffect_nil_pending (orders : List COrder) (d : DepositInfo) :
    ordersEffect [] orders d = d := by
  induction orders generalizing d with
  | nil => rfl
  | cons o os ih =>
    rw [ordersEffect_cons, orderEffect_nil_pending, ih]

theorem fixUnrecordedOrders_eq (s : Store) (orders : List COrder)
    (hid : ∀ a ∈ s, ∀ b ∈ s, a.depositID = b.depositID → a = b)
    (hcid : ∀ di ∈ s, di.status = Status.waitPassthrough →
      di.passthrough.order.customerID ≠ "") :
    ∃ ups, fixUnrecordedOrders s (.ok orders) =
      (s.map (fun d => ordersEffect (pendingOf s) orders d), ups, none) := by
  unfold fixUnrecordedOrders
  by_cases hemp : (pendingOf s).isEmpty
  · rw [if_pos hemp]
    have hnil : pendingOf s = [] := List.isEmpty_iff.mp hemp
    refine ⟨[], ?_⟩
    have hs : s.map (fun d => ordersEffect (pendingOf s) orders d) = s := by
      rw [hnil]
      rw [List.map_congr_left fun d _ => ordersEffect_nil_pending orders d]
      exact List.map_id s
    rw [hs]
  · rw [if_neg hemp]
    have hany : ¬ ((pendingOf s).any
        (fun di => di.passthrough.order.customerID = "") = true) := by
      intro h
      obtain ⟨x, hx, hx2⟩ := List.any_eq_true.mp h
      have hm := List.mem_filter.mp hx
      exact hcid x hm.1 (by simpa using hm.2) (by simpa using hx2)
    rw [if_neg hany]
    obtain ⟨ups2, h2⟩ := fix_foldl s (pendingOf s) hid
      (fun d hd => by
        have hm := List.mem_filter.mp hd
        exact ⟨hm.1, by simpa using hm.2⟩)
      orders (fun d => d) [] (fun d => rfl) (fun d => Or.inl rfl)
    refine ⟨ups2, ?_⟩
    have hsid : s.map (fun d : DepositInfo => d) = s := List.map_id' s
    rw [hsid] at h2
    exact h2

theorem runStartupQueue_eq (s : Store) (orders : List COrder)
    (hid : ∀ a ∈ s, ∀ b ∈ s, a.depositID = b.depositID → a = b)
    (hcid : ∀ di ∈ s, di.status = Status.waitPassthrough →
      di.passthrough.order.customerID ≠ "") :
    runStartupQueue s (.ok orders) =
      (s.map (fun d => ordersEffect (pendingOf s) orders d),
       (s.map (fun d => ordersEffect (pendingOf s) orders d)).filter
         (fun di => di.status = Status.waitPassthroughOrderComplete) ++
       (s.map (fun d => ordersEffect (pendingOf s) orders d)).filter
         (fun di => di.status = Status.waitPassthrough),
       none) := by
  obtain ⟨ups, hfix⟩ := fixUnrecordedOrders_eq s orders hid hcid
  unfold runStartupQueue
  rw [hfix]

theorem firesOn_elim (pending : List DepositInfo) (o : COrder) (i : String)
    (hf : firesOn pending o i) :
    ∃ c di0, o.cid = some c ∧ cidLookup pending c = some di0 ∧
      di0.depositID = i := by
  cases hcid : o.cid with
  | none => simp [firesOn, hcid] at hf
  | some c =>
    cases hc : cidLookup pending c with
    | none => simp [firesOn, hcid, hc] at hf
    | some di0 =>
      have h3 := hf
      simp only [firesOn, hcid, hc] at h3
      exact ⟨c, di0, rfl, hc, h3⟩

theorem firesOn_intro (pending : List DepositInfo) (o : COrder) (i : String)
    (c : String) (di0 : DepositInfo) (h1 : o.cid = some c)
    (h2 : cidLookup pending c = some di0) (h3 : di0.depositID = i) :
    firesOn pending o i := by
  simp only [firesOn, h1, h2]
  exact h3

/-- C3: the startup order-recovery sweep followed by the startup enqueue of
Passthrough.Run. With unique DepositIDs, CustomerIDs set on all pending
deposits and CustomerIDs identifying pending deposits uniquely: the sweep
finishes without error; each order whose CID equals a WaitPassthrough
deposit's CustomerID (and is that deposit's only matching order) updates
exactly that deposit to WaitPassthroughOrderComplete with the recovered
OrderID; a pending deposit matched by no order, and every deposit not at
WaitPassthrough, are unchanged; when every order has a nil or unmatched CID
the store is unchanged; and after the sweep every
WaitPassthroughOrderComplete record and every remaining WaitPassthrough
record of the store is in the internal work queue. -/
theorem c3_recovery_sweep (s : Store) (orders : List COrder)
    (hid : ∀ a ∈ s, ∀ b ∈ s, a.depositID = b.depositID → a = b)
    (hcid : ∀ di ∈ s, di.status = Status.waitPassthrough →
      di.passthrough.order.customerID ≠ "")
    (hcidInj : ∀ a ∈ s, ∀ b ∈ s, a.status = Status.waitPassthrough →
      b.status = Status.waitPassthrough →
      a.passthrough.order.customerID = b.passthrough.order.customerID → a = b) :
    ((runStartupQueue s (.ok orders)).2.2 = none) ∧
    (∀ di ∈ s, di.status = Status.waitPassthrough →
      ∀ o ∈ orders, o.cid = some di.passthrough.order.customerID →
      (∀ o2 ∈ orders, o2.cid = some di.passthrough.order.customerID → o2 = o) →
      getDepositInfo (runStartupQueue s (.ok orders)).1 di.depositID =
        some (recordOrderOnDeposit o di)) ∧
    (∀ di ∈ s, di.status = Status.waitPassthrough →
      (∀ o ∈ orders, o.cid ≠ some di.passthrough.order.customerID) →
      getDepositInfo (runStartupQueue s (.ok orders)).1 di.depositID = some di) ∧
    (∀ di ∈ s, di.status ≠ Status.waitPassthrough →
      getDepositInfo (runStartupQueue s (.ok orders)).1 di.depositID = some di) ∧
    ((∀ o ∈ orders, o.cid = none ∨
        ∀ di ∈ s, di.status = Status.waitPassthrough →
          o.cid ≠ some di.passthrough.order.customerID) →
      (runStartupQueue s (.ok orders)).1 = s) ∧
    (∀ di ∈ (runStartupQueue s (.ok orders)).1,
      (di.status = Status.waitPassthroughOrderComplete ∨
       di.status = Status.waitPassthrough) →
      di ∈ (runStartupQueue s (.ok orders)).2.1) := by
  have hrun := runStartupQueue_eq s orders hid hcid
  have heff : ∀ d, ((fun d => ordersEffect (pendingOf s) orders d) d).depositID =
      d.depositID := fun d => ordersEffect_depositID (pendingOf s) orders d
  have hfires_eq : ∀ di ∈ s, ∀ o2, firesOn (pendingOf s) o2 di.depositID →
      di.status = Status.waitPassthrough ∧
      o2.cid = some di.passthrough.order.customerID := by
    intro di hdi o2 hf
    obtain ⟨c2, di0, hcid2, hlk, hdid⟩ := firesOn_elim _ _ _ hf
    obtain ⟨hm, hcc⟩ := cidLookup_some _ _ _ hlk
    have hmf := List.mem_filter.mp hm
    have hde : di0 = di := hid di0 hmf.1 di hdi hdid
    subst hde
    exact ⟨by simpa using hmf.2, by rw [hcid2, hcc]⟩
  refine ⟨?_, ?_, ?_, ?_, ?_, ?_⟩
  · rw [hrun]
  · intro di hdi hst o ho hocid huniqo
    rw [hrun]
    rw [getDepositInfo_map_eff s _ heff hid di hdi]
    have hpmem : di ∈ pendingOf s := List.mem_filter.mpr ⟨hdi, by simp [hst]⟩
    have hinj : ∀ x ∈ pendingOf s,
        x.passthrough.order.customerID = di.passthrough.order.customerID →
        x = di := by
      intro x hx hxc
      have hmf := List.mem_filter.mp hx
      exact hcidInj x hmf.1 di hdi (by simpa using hmf.2) hst hxc
    have hlk := cidLookup_self (pendingOf s) di hpmem hinj
    have hfire : firesOn (pendingOf s) o di.depositID :=
      firesOn_intro _ _ _ _ _ hocid hlk rfl
    have huniqF : ∀ o2 ∈ orders, firesOn (pendingOf s) o2 di.depositID → o2 = o :=
      fun o2 ho2 hf2 => huniqo o2 ho2 (hfires_eq di hdi o2 hf2).2
    rw [ordersEffect_unique_fire (pendingOf s) orders o di ho hfire huniqF]
  · intro di hdi hst hnone
    rw [hrun]
    rw [getDepositInfo_map_eff s _ heff hid di hdi]
    rw [ordersEffect_of_not_fires (pendingOf s) orders di]
    intro o ho hf
    exact (hnone o ho) (hfires_eq di hdi o hf).2
  · intro di hdi hst
    rw [hrun]
    rw [getDepositInfo_map_eff s _ heff hid di hdi]
    rw [ordersEffect_of_not_fires (pendingOf s) orders di]
    intro o ho hf
    exact hst (hfires_eq di hdi o hf).1
  · intro hall
    rw [hrun]
    show s.map (fun d => ordersEffect (pendingOf s) orders d) = s
    rw [List.map_congr_left (g := fun d : DepositInfo => d)]
    · exact List.map_id' s
    · intro d hd
      apply ordersEffect_of_not_fires
      intro o ho hf
      obtain ⟨hwp, hocid⟩ := hfires_eq d hd o hf
      rcases hall o ho with h | h
      · rw [h] at hocid
        cases hocid
      · exact (h d hd hwp) hocid
  · intro di hdi hst
    rw [hrun] at hdi ⊢
    rcases hst with h | h
    · exact List.mem_append.mpr (Or.inl (List.mem_filter.mpr ⟨hdi, by simp [h]⟩))
    · exact List.mem_append.mpr (Or.inr (List.mem_filter.mpr ⟨hdi, by simp [h]⟩))

/-- Witness for c3_recovery_sweep: in a store with a pending deposit of
CustomerID "tx:1" and a WaitSend deposit, the sweep over an order list holding
one nil-CID order and one order with CID "tx:1" recovers OrderID 42 onto
exactly the pending deposit. -/
theorem c3_recovery_sweep_witness :
    getDepositInfo (runStartupQueue exampleSweepStore
        (.ok [exampleSweepNilOrder, exampleSweepOrder])).1
      "tx:1" = some (recordOrderOnDeposit exampleSweepOrder exampleSweepPending) :=
  (c3_recovery_sweep exampleSweepStore [exampleSweepNilOrder, exampleSweepOrder]
    (by decide) (by decide) (by decide)).2.1
    exampleSweepPending (by decide) rfl
    exampleSweepOrder (by decide) rfl (by decide)

end Teller
